import Mathlib

/-!
Verification of the `reverted/wx` authenticating reverse-proxy gateway.

The Go sources are shallowly embedded: each Go function of interest is
translated into an executable Lean definition over explicit data.  HTTP
headers are association lists from canonical header names to value lists
(Go's `http.Header` map), requests carry parsed form values and headers,
and handlers return explicit response values (status, cookies, redirect)
or event traces.  External collaborators (the OAuth2 token exchange, the
upstream HTTP client, the groupcache backend) are passed in as explicit
oracle parameters, mirroring the interfaces the Go code calls.
-/

namespace Wx

/-! ## HTTP headers (Go `http.Header`: map from name to list of values).

Modelled as an association list with at most one entry per name, matching
the Go map.  Keys are taken verbatim; the repository only manipulates the
already-canonical names "Authorization", "Cookie" and "Content-Type". -/

abbrev Header := List (String × List String)

/-- Go `Header.Values`/map lookup: the value slice for a key (empty if absent). -/
def headerValues (h : Header) (k : String) : List String :=
  match h with
  | [] => []
  | (k', vs) :: rest => if k' = k then vs else headerValues rest k

/-- Go `Header.Get`: first value for the key, or `""`. -/
def headerGet (h : Header) (k : String) : String :=
  match headerValues h k with
  | v :: _ => v
  | [] => ""

/-- Go `Header.Add`: append a value to the key's slice (create it if absent). -/
def headerAdd (h : Header) (k v : String) : Header :=
  match h with
  | [] => [(k, [v])]
  | (k', vs) :: rest =>
    if k' = k then (k', vs ++ [v]) :: rest else (k', vs) :: headerAdd rest k v

/-- Go `Header.Del`: remove the key entirely. -/
def headerDel (h : Header) (k : String) : Header :=
  match h with
  | [] => []
  | (k', vs) :: rest => if k' = k then headerDel rest k else (k', vs) :: headerDel rest k

/-! ## Cookie parsing (Go `net/http` `readCookies`, behind `Request.Cookie`).

A `Cookie` request header line is split on `;`, each part is trimmed of
optional whitespace and split at the first `=`; the first pair whose name
matches is returned.  (Value unquoting and name/value byte validation of
the Go parser are not modelled; the repository only round-trips values it
itself set.) -/

/-- Split a character list at every occurrence of the separator. -/
def splitList (sep : Char) : List Char → List (List Char)
  | [] => [[]]
  | c :: cs =>
    let r := splitList sep cs
    if c = sep then [] :: r
    else
      match r with
      | x :: xs => (c :: x) :: xs
      | [] => [[c]]

/-- Trim optional whitespace (space / tab) from both ends. -/
def trimOWS (l : List Char) : List Char :=
  ((l.dropWhile (fun c => c = ' ' ∨ c = '\t')).reverse.dropWhile
    (fun c => c = ' ' ∨ c = '\t')).reverse

/-- Cut a character list at the first occurrence of `c`:
returns the part before it and, if found, the part after it. -/
def cutAtFirst (c : Char) : List Char → List Char × Option (List Char)
  | [] => ([], none)
  | x :: xs =>
    if x = c then ([], some xs)
    else
      let (a, b) := cutAtFirst c xs
      (x :: a, b)

/-- Parse one `name=value` fragment of a `Cookie` header line. -/
def parseCookiePair (part : List Char) : Option (List Char × List Char) :=
  let p := trimOWS part
  match cutAtFirst '=' p with
  | (_, none) => none
  | ([], some _) => none
  | (name, some value) => some (name, value)

/-- First cookie with the given name among the fragments of one line. -/
def findCookie (name : List Char) : List (List Char) → Option (List Char)
  | [] => none
  | part :: rest =>
    match parseCookiePair part with
    | some (n, v) => if n = name then some v else findCookie name rest
    | none => findCookie name rest

/-- Go `Request.Cookie(name)`: scan all `Cookie` header lines for the named
cookie; `none` models the `http.ErrNoCookie` error. -/
def readCookieValue (name : String) : List String → Option String
  | [] => none
  | line :: rest =>
    match findCookie name.data (splitList ';' line.data) with
    | some v => some (String.mk v)
    | none => readCookieValue name rest

/-! ## Requests and auth-handler responses. -/

/-- An inbound `*http.Request`, reduced to the parts the repository reads:
the URL (as a string), the parsed form/query parameters, and the headers. -/
structure Request where
  url : String := ""
  formParams : List (String × String) := []
  headers : Header := []
deriving Repr, DecidableEq

/-- Go `Request.FormValue`: first value for the key, or `""`. -/
def formValue (r : Request) (k : String) : String :=
  match r.formParams.find? (fun p => p.1 = k) with
  | some p => p.2
  | none => ""

/-- Go `Request.Cookie` on our request model. -/
def reqCookie (r : Request) (name : String) : Option String :=
  readCookieValue name (headerValues r.headers "Cookie")

/-- A `Set-Cookie` issued through Go `http.SetCookie`. -/
structure SetCookie where
  name : String
  value : String := ""
  path : String := ""
  expires : Int := 0
  maxAge : Int := 0
  httpOnly : Bool := false
deriving Repr, DecidableEq

/-- What an auth-server handler writes to its `ResponseWriter`:
a status code, the cookies it set, and the redirect `Location` if any. -/
structure AuthResponse where
  status : Nat
  cookies : List SetCookie := []
  redirect : Option String := none
deriving Repr, DecidableEq

/-! ## Proxy pipeline errors (from `proxy_server.go`). -/

/-- Errors flowing through the proxy pipeline.  `statusError` is the
repository's status-carrying error struct (`NewStatusError`); every other
Go `error` value is collapsed to `generic`. -/
inductive ProxyErr where
  | statusError (code : Nat)
  | generic
deriving Repr, DecidableEq

instance {ε α : Type} [DecidableEq ε] [DecidableEq α] : DecidableEq (Except ε α) := fun a b =>
  match a, b with
  | .ok x, .ok y =>
    if h : x = y then isTrue (by rw [h]) else isFalse (by intro hh; cases hh; exact h rfl)
  | .error x, .error y =>
    if h : x = y then isTrue (by rw [h]) else isFalse (by intro hh; cases hh; exact h rfl)
  | .ok _, .error _ => isFalse (by intro hh; cases hh)
  | .error _, .ok _ => isFalse (by intro hh; cases hh)

/-! ## URL parsing (Go `net/url.Parse`), as used by `Callback` and `Logout`.

A faithful-enough executable model of `url.Parse`: fragment split, scheme
recognition, the opaque/rootless branch, the `//authority` branch (host is
the authority after the last `@`), and the query split.  Percent-decoding,
userinfo retention and host-byte validation are not modelled; control
characters and a leading `:` (Go's "missing protocol scheme") are rejected
as in Go. -/

/-- The fields of Go's `url.URL` that the repository reads or re-serialises.
(`opq` is Go's `Opaque` field.) -/
structure GoURL where
  scheme : String := ""
  opq : String := ""
  host : String := ""
  path : String := ""
  rawQuery : String := ""
  fragment : String := ""
deriving Repr, DecidableEq

/-- Cut a list at the first occurrence of `c`, keeping the separator with
the right part (Go `split(s, c, false)`). -/
def spanUntil (c : Char) : List Char → List Char × List Char
  | [] => ([], [])
  | x :: xs =>
    if x = c then ([], x :: xs)
    else
      let (a, b) := spanUntil c xs
      (x :: a, b)

/-- The part of an authority after the last `@` (Go takes
`authority[strings.LastIndex(authority, "@")+1:]` as the host). -/
def afterLastAt (l : List Char) : List Char :=
  (l.reverse.takeWhile (fun c => ¬ c = '@')).reverse

/-- Go `getScheme`: `some (some (scheme, rest))` when a `scheme:` is
present, `some none` when the URL has no scheme, `none` on Go's
"missing protocol scheme" error (`:` before any scheme character). -/
def schemeLoop (acc : List Char) : List Char → Option (Option (List Char × List Char))
  | [] => some none
  | c :: cs =>
    if c.isAlpha then schemeLoop (c :: acc) cs
    else if c = ':' then
      if acc = [] then none else some (some (acc.reverse, cs))
    else if c.isDigit ∨ c = '+' ∨ c = '-' ∨ c = '.' then
      if acc = [] then some none else schemeLoop (c :: acc) cs
    else some none

/-- Go `url.Parse` on a character list. -/
def urlParseChars (s : List Char) : Option GoURL :=
  if s.any (fun c => c.toNat < 32 || c.toNat == 127) then none
  else
    let (restF, fragOpt) := cutAtFirst '#' s
    match schemeLoop [] restF with
    | none => none
    | some schemeRes =>
      let scheme := match schemeRes with
        | some (sc, _) => String.mk (sc.map Char.toLower)
        | none => ""
      let rest0 := match schemeRes with
        | some (_, r) => r
        | none => restF
      let (rest1, qOpt) := cutAtFirst '?' rest0
      let rawQuery := String.mk (qOpt.getD [])
      let fragment := String.mk (fragOpt.getD [])
      if rest1.take 1 ≠ ['/'] ∧ scheme ≠ "" then
        some { scheme, opq := String.mk rest1, rawQuery, fragment }
      else if rest1.take 1 ≠ ['/'] ∧ ((spanUntil '/' rest1).1.contains ':') then
        none
      else if rest1.take 2 = ['/', '/'] ∧ (scheme ≠ "" ∨ rest1.take 3 ≠ ['/', '/', '/']) then
        let after := rest1.drop 2
        let (auth, rest2) := spanUntil '/' after
        some { scheme, host := String.mk (afterLastAt auth), path := String.mk rest2,
               rawQuery, fragment }
      else
        some { scheme, path := String.mk rest1, rawQuery, fragment }

/-- Go `url.Parse`. -/
def urlParse (s : String) : Option GoURL :=
  urlParseChars s.data

/-- Go `url.URL.String()` re-serialisation (the subset of fields we model). -/
def urlString (u : GoURL) : String :=
  (if u.scheme ≠ "" then u.scheme ++ ":" else "")
    ++ (if u.opq ≠ "" then u.opq
        else (if u.host ≠ "" then "//" ++ u.host else "") ++ u.path)
    ++ (if u.rawQuery ≠ "" then "?" ++ u.rawQuery else "")
    ++ (if u.fragment ≠ "" then "#" ++ u.fragment else "")

/-! ## Base64 (Go `encoding/base64` `StdEncoding`), used by the state codec.

Standard alphabet with `=` padding; decoding requires a length that is a
multiple of four, rejects characters outside the alphabet, allows padding
only at the end, and (like Go's non-strict `StdEncoding`) discards any
non-zero trailing bits. -/

/-- The standard base64 alphabet, index to character. -/
def b64Char (n : Nat) : Char :=
  if n < 26 then Char.ofNat (65 + n)
  else if n < 52 then Char.ofNat (71 + n)
  else if n < 62 then Char.ofNat (n - 4)
  else if n = 62 then '+' else '/'

/-- The standard base64 alphabet, character to index. -/
def b64Val (c : Char) : Option Nat :=
  if 'A' ≤ c ∧ c ≤ 'Z' then some (c.toNat - 65)
  else if 'a' ≤ c ∧ c ≤ 'z' then some (c.toNat - 71)
  else if '0' ≤ c ∧ c ≤ '9' then some (c.toNat + 4)
  else if c = '+' then some 62
  else if c = '/' then some 63
  else none

/-- Go `base64.StdEncoding.EncodeToString` over a byte list. -/
def b64EncodeBytes : List Nat → List Char
  | b1 :: b2 :: b3 :: rest =>
    b64Char (b1 / 4) :: b64Char (b1 % 4 * 16 + b2 / 16)
      :: b64Char (b2 % 16 * 4 + b3 / 64) :: b64Char (b3 % 64) :: b64EncodeBytes rest
  | [b1, b2] => [b64Char (b1 / 4), b64Char (b1 % 4 * 16 + b2 / 16), b64Char (b2 % 16 * 4), '=']
  | [b1] => [b64Char (b1 / 4), b64Char (b1 % 4 * 16), '=', '=']
  | [] => []

/-- Go `base64.StdEncoding.DecodeString` over a character list. -/
def b64DecodeChars : List Char → Option (List Nat)
  | [] => some []
  | [c1, c2, '=', '='] => do
    let v1 ← b64Val c1
    let v2 ← b64Val c2
    some [v1 * 4 + v2 / 16]
  | [c1, c2, c3, '='] => do
    let v1 ← b64Val c1
    let v2 ← b64Val c2
    let v3 ← b64Val c3
    some [v1 * 4 + v2 / 16, v2 % 16 * 16 + v3 / 4]
  | c1 :: c2 :: c3 :: c4 :: rest => do
    let v1 ← b64Val c1
    let v2 ← b64Val c2
    let v3 ← b64Val c3
    let v4 ← b64Val c4
    let tail ← b64DecodeChars rest
    some ((v1 * 4 + v2 / 16) :: (v2 % 16 * 16 + v3 / 4) :: (v3 % 4 * 64 + v4) :: tail)
  | _ => none

/-! ## JSON (Go `encoding/json`), specialised to the `State` struct.

`json.Marshal(State{...})` deterministically produces
`{"RedirectUri":<escaped string>,"Timestamp":<integer>}` with Go's default
HTML-escaping; the unmarshal side is a parser for exactly the object shape
`json.Unmarshal` accepts into `State`: an object whose `RedirectUri`
member is a string and whose `Timestamp` member is an integer, other
members of those primitive shapes being ignored, later duplicates winning.
(Case-insensitive key fallback, non-primitive ignored members, and UTF-8
multi-byte handling are not modelled; the repository only decodes values
it itself encoded, which stay inside this fragment.)  Bytes are modelled
as `Char.toNat` codes, faithful for ASCII content. -/

/-- The Go `State` struct carried in the state cookie. -/
structure State where
  RedirectUri : String := ""
  Timestamp : Int := 0
deriving Repr, DecidableEq

/-- Decimal digit character. -/
def digitChar (n : Nat) : Char :=
  match n with
  | 0 => '0' | 1 => '1' | 2 => '2' | 3 => '3' | 4 => '4'
  | 5 => '5' | 6 => '6' | 7 => '7' | 8 => '8' | _ => '9'

/-- Lower-case hexadecimal digit character. -/
def hexChar (n : Nat) : Char :=
  match n with
  | 10 => 'a' | 11 => 'b' | 12 => 'c' | 13 => 'd' | 14 => 'e' | 15 => 'f'
  | m => digitChar m

/-- Decimal digits of a natural number (fuelled so the recursion is
structural; `n + 1` units of fuel always suffice). -/
def natCharsAux (fuel n : Nat) : List Char :=
  match fuel with
  | 0 => []
  | fuel + 1 =>
    if n < 10 then [digitChar n] else natCharsAux fuel (n / 10) ++ [digitChar (n % 10)]

/-- Decimal digits of a natural number. -/
def natChars (n : Nat) : List Char :=
  natCharsAux (n + 1) n

/-- Decimal rendering of a natural number. -/
def natToString (n : Nat) : String :=
  String.mk (natChars n)

/-- Decimal rendering of an integer (Go `%d` / JSON integer). -/
def intChars (i : Int) : List Char :=
  if i < 0 then '-' :: natChars i.natAbs else natChars i.toNat

/-- Go `encoding/json` escaping of one string character (default encoder:
HTML-escapes `<`, `>`, `&`, short escapes for `"`, `\`, newline, carriage
return and tab, `\u00xx` for other control characters, and ` / `). -/
def jsonEscapeChar (c : Char) : List Char :=
  if c = '"' then ['\\', '"']
  else if c = '\\' then ['\\', '\\']
  else if c = '\n' then ['\\', 'n']
  else if c = '\r' then ['\\', 'r']
  else if c = '\t' then ['\\', 't']
  else if c = '<' then ['\\', 'u', '0', '0', '3', 'c']
  else if c = '>' then ['\\', 'u', '0', '0', '3', 'e']
  else if c = '&' then ['\\', 'u', '0', '0', '2', '6']
  else if c.toNat < 32 then ['\\', 'u', '0', '0', hexChar (c.toNat / 16), hexChar (c.toNat % 16)]
  else if c.toNat = 8232 then ['\\', 'u', '2', '0', '2', '8']
  else if c.toNat = 8233 then ['\\', 'u', '2', '0', '2', '9']
  else [c]

/-- Go `encoding/json` string-content escaping. -/
def jsonEscape : List Char → List Char
  | [] => []
  | c :: cs => jsonEscapeChar c ++ jsonEscape cs

/-- Go `json.Marshal` of a `State` value (field order is declaration order). -/
def jsonMarshalState (st : State) : List Char :=
  Char.ofNat 123 :: '"' :: "RedirectUri".data ++ '"' :: ':' :: '"' :: jsonEscape st.RedirectUri.data
    ++ '"' :: ',' :: '"' :: "Timestamp".data ++ '"' :: ':' :: intChars st.Timestamp
    ++ [Char.ofNat 125]

/-- Skip JSON whitespace. -/
def skipWs : List Char → List Char
  | c :: cs => if c = ' ' ∨ c = '\t' ∨ c = '\n' ∨ c = '\r' then skipWs cs else c :: cs
  | [] => []

/-- Hexadecimal digit value. -/
def hexVal (c : Char) : Option Nat :=
  if '0' ≤ c ∧ c ≤ '9' then some (c.toNat - 48)
  else if 'a' ≤ c ∧ c ≤ 'f' then some (c.toNat - 87)
  else if 'A' ≤ c ∧ c ≤ 'F' then some (c.toNat - 55)
  else none

/-- Read the body of a JSON string (the opening quote already consumed);
returns the decoded content and the remainder after the closing quote. -/
def readJsonString (fuel : Nat) (acc : List Char) (l : List Char) :
    Option (List Char × List Char) :=
  match fuel with
  | 0 => none
  | fuel + 1 =>
    match l with
    | [] => none
    | '"' :: rest => some (acc.reverse, rest)
    | '\\' :: e :: rest =>
      if e = '"' ∨ e = '\\' ∨ e = '/' then readJsonString fuel (e :: acc) rest
      else if e = 'b' then readJsonString fuel (Char.ofNat 8 :: acc) rest
      else if e = 'f' then readJsonString fuel (Char.ofNat 12 :: acc) rest
      else if e = 'n' then readJsonString fuel ('\n' :: acc) rest
      else if e = 'r' then readJsonString fuel ('\r' :: acc) rest
      else if e = 't' then readJsonString fuel ('\t' :: acc) rest
      else if e = 'u' then
        match rest with
        | a :: b :: c :: d :: rest' =>
          match hexVal a, hexVal b, hexVal c, hexVal d with
          | some va, some vb, some vc, some vd =>
            readJsonString fuel (Char.ofNat (va * 4096 + vb * 256 + vc * 16 + vd) :: acc) rest'
          | _, _, _, _ => none
        | _ => none
      else none
    | c :: rest => readJsonString fuel (c :: acc) rest

/-- Accumulate decimal digits. -/
def readDigits (fuel : Nat) (acc : Nat) (l : List Char) : Nat × List Char :=
  match fuel with
  | 0 => (acc, l)
  | fuel + 1 =>
    match l with
    | c :: cs => if c.isDigit then readDigits fuel (acc * 10 + (c.toNat - 48)) cs else (acc, c :: cs)
    | [] => (acc, [])

/-- Read a JSON integer (fractions and exponents are rejected, as
`json.Unmarshal` into an `int64` field rejects them). -/
def readJsonInt (l : List Char) : Option (Int × List Char) :=
  match l with
  | '-' :: c :: cs =>
    if c.isDigit then
      let (n, rest) := readDigits (c :: cs).length 0 (c :: cs)
      some (-(n : Int), rest)
    else none
  | c :: cs =>
    if c.isDigit then
      let (n, rest) := readDigits (c :: cs).length 0 (c :: cs)
      some ((n : Int), rest)
    else none
  | [] => none

/-- Parse the members of the JSON object into a `State`, starting just
after `{` (or after a comma); later duplicate members overwrite earlier
ones, members other than the two fields are ignored if of primitive shape. -/
def readStateMembers (fuel : Nat) (st : State) (l : List Char) : Option (State × List Char) :=
  match fuel with
  | 0 => none
  | fuel + 1 =>
    match skipWs l with
    | '"' :: rest =>
      match readJsonString rest.length [] rest with
      | none => none
      | some (key, rest1) =>
        match skipWs rest1 with
        | ':' :: rest2 =>
          let body := skipWs rest2
          let parsed : Option (State × List Char) :=
            match body with
            | '"' :: r2 =>
              match readJsonString r2.length [] r2 with
              | none => none
              | some (sval, r3) =>
                if key = "RedirectUri".data then
                  some ({ st with RedirectUri := String.mk sval }, r3)
                else if key = "Timestamp".data then none
                else some (st, r3)
            | _ =>
              match readJsonInt body with
              | none => none
              | some (ival, r3) =>
                if key = "Timestamp".data then some ({ st with Timestamp := ival }, r3)
                else if key = "RedirectUri".data then none
                else some (st, r3)
          match parsed with
          | none => none
          | some (st', rest3) =>
            match skipWs rest3 with
            | ',' :: rest4 => readStateMembers fuel st' rest4
            | c :: rest4 => if c = Char.ofNat 125 then some (st', rest4) else none
            | [] => none
        | _ => none
    | _ => none

/-- Go `json.Unmarshal` of a byte list into a `State` (missing members keep
the Go zero values). -/
def jsonUnmarshalState (l : List Char) : Option State :=
  match skipWs l with
  | c :: rest =>
    if c = Char.ofNat 123 then
      match skipWs rest with
      | d :: rest2 =>
        if d = Char.ofNat 125 then
          if skipWs rest2 = [] then some {} else none
        else
          match readStateMembers rest.length {} (skipWs rest) with
          | none => none
          | some (st, rest3) => if skipWs rest3 = [] then some st else none
      | [] => none
    else none
  | [] => none

/-! ## The state codec (`authServer.encode` / `authServer.decode`). -/

/-- Go `authServer.encode`: JSON-marshal then base64.  (`json.Marshal` cannot
fail on `State`, so the Go error branch is dead and the function is total.) -/
def encode (st : State) : String :=
  String.mk (b64EncodeBytes ((jsonMarshalState st).map Char.toNat))

/-- Go `authServer.decode` specialised to `State`: pad to a multiple of four
with `=`, base64-decode, JSON-unmarshal. -/
def decode (encoded : String) : Option State :=
  let padded :=
    if encoded.length % 4 > 0 then
      encoded ++ String.mk (List.replicate (4 - encoded.length % 4) '=')
    else encoded
  match b64DecodeChars padded.data with
  | none => none
  | some bytes => jsonUnmarshalState (bytes.map Char.ofNat)

/-! ## The auth server (from `auth_server.go`). -/

/-- The `authServer` configuration state.  The `oauth2.Config` collaborator is
not stored; its two entry points (`AuthCodeURL`, `Exchange`) are passed to
the handlers as oracle parameters. -/
structure authServer where
  authCookieName : String := "auth"
  stateCookieName : String := "state"
deriving Repr, DecidableEq

/-- Go `authServer.ModifyHeader`: if the auth cookie is present, copy its value
into an added `Authorization` header and delete the `Cookie` header; if it
is absent, only log.  Either way the returned error is `nil` (`Except.ok`),
so it can never short-circuit the proxy's modifier pipeline. -/
def authServer.ModifyHeader (self : authServer) (r : Request) : Except ProxyErr Request :=
  match reqCookie r self.authCookieName with
  | none => .ok r
  | some v =>
    .ok { r with headers := headerDel (headerAdd r.headers "Authorization" v) "Cookie" }

/-- An `oauth2.Token` as used by `Callback` (expiry as Unix seconds). -/
structure Token where
  tokenType : String := ""
  accessToken : String := ""
  expiry : Int := 0
deriving Repr, DecidableEq

/-- Go `authServer.checkError`: the identity provider's `error` /
`error_description` form parameters; a non-empty `error` is an error. -/
def authServer.checkError (r : Request) : Option String :=
  let errType := formValue r "error"
  let errDesc := formValue r "error_description"
  if errType ≠ "" then some (errType ++ " : " ++ errDesc) else none

/-- Go `authServer.encodeState`: state token from the optional `redirect_uri`
form value (default `/`) and the current Unix time (passed explicitly). -/
def encodeState (r : Request) (now : Int) : String :=
  let redirectUri := if formValue r "redirect_uri" = "" then "/" else formValue r "redirect_uri"
  encode { RedirectUri := redirectUri, Timestamp := now }

/-- Go `authServer.decodeState`: require the state cookie, require its value to
equal the `state` form parameter byte-for-byte, then decode it.  `none`
stands for any of the three returned errors. -/
def authServer.decodeState (self : authServer) (r : Request) : Option State :=
  match reqCookie r self.stateCookieName with
  | none => none
  | some v => if v ≠ formValue r "state" then none else decode v

/-- Go `authServer.Login`: encode the state (the encoder is total, so the Go
`StatusBadRequest` branch is unreachable), set the state cookie (1-hour
expiry, http-only), and 307-redirect to the provider's authorization URL.
`authCodeURL` is the `oauth2.Config.AuthCodeURL` collaborator. -/
def authServer.Login (self : authServer) (authCodeURL : String → String) (r : Request)
    (now : Int) : AuthResponse :=
  let state := encodeState r now
  { status := 307
    cookies := [{ name := self.stateCookieName, value := state, path := "/",
                  expires := now + 3600, httpOnly := true }]
    redirect := some (authCodeURL state) }

/-- The auth cookie `Callback` sets on success. -/
def authCookie (self : authServer) (token : Token) : SetCookie :=
  { name := self.authCookieName, value := token.tokenType ++ " " ++ token.accessToken,
    path := "/", expires := token.expiry, httpOnly := true }

/-- The expired state cookie `Callback` sets on success. -/
def clearStateCookie (self : authServer) : SetCookie :=
  { name := self.stateCookieName, path := "/", maxAge := -1 }

/-- The expired auth cookie `Logout` sets. -/
def clearAuthCookie (self : authServer) : SetCookie :=
  { name := self.authCookieName, path := "/", maxAge := -1 }

/-- Go `authServer.Callback`: provider error check, state cookie/parameter
validation, redirect-target parse, open-redirect guard (non-empty host is
rejected), then the code-for-token exchange (`exchange` is the
`oauth2.Config.Exchange` collaborator, `none` standing for its error); the
auth cookie is set and the state cookie cleared only after every step has
succeeded, and every failure is a bare 400 with no cookies. -/
def authServer.Callback (self : authServer) (exchange : String → Option Token)
    (r : Request) : AuthResponse :=
  match authServer.checkError r with
  | some _ => { status := 400 }
  | none =>
    match self.decodeState r with
    | none => { status := 400 }
    | some state =>
      match urlParse state.RedirectUri with
      | none => { status := 400 }
      | some redirectUrl =>
        if redirectUrl.host ≠ "" then { status := 400 }
        else
          match exchange (formValue r "code") with
          | none => { status := 400 }
          | some token =>
            { status := 307
              cookies := [authCookie self token, clearStateCookie self]
              redirect := some (urlString redirectUrl) }

/-- Go `authServer.Logout`: open-redirect guard on the optional `redirect_uri`
form value (default `/`), then clear the auth cookie and 307-redirect. -/
def authServer.Logout (self : authServer) (r : Request) : AuthResponse :=
  let redirectUri := if formValue r "redirect_uri" = "" then "/" else formValue r "redirect_uri"
  match urlParse redirectUri with
  | none => { status := 400 }
  | some redirectUrl =>
    if redirectUrl.host ≠ "" then { status := 400 }
    else
      { status := 307
        cookies := [clearAuthCookie self]
        redirect := some (urlString redirectUrl) }

/-! ## The proxy server (from `proxy_server.go`).

`Serve` is modelled as producing the trace of operations it performs on
its `ResponseWriter` (header copies, the status write, the body relay
choice) plus the error-log events, so ordering claims are visible.
`http.Error` contributes its status write (its short plain-text body and
content-type header are not modelled). -/

/-- A `Modifier` (`func(*http.Request) error`); errors abort the pipeline. -/
abbrev Modifier := Request → Except ProxyErr Request

/-- An upstream `*http.Response`, reduced to what `Serve` reads. -/
structure Response where
  StatusCode : Nat
  Header : Header
deriving Repr, DecidableEq

/-- One observable step of `proxyServer.Serve`. -/
inductive ProxyEvent where
  | addHeader (k v : String)
  | writeStatus (code : Nat)
  | copyBody
  | streamBody
  | logErr
deriving Repr, DecidableEq

/-- The `proxyServer` state: the target base URL, the modifier pipeline, and the
`http.Client.Do` collaborator as an oracle. -/
structure proxyServer where
  Target : String
  Modifiers : List Modifier
  clientDo : Request → Except ProxyErr Response

/-- Merge of a reference path onto a base path (Go `resolvePath`, without
dot-segment removal, which the repository's claims do not depend on). -/
def mergePaths (base ref : String) : String :=
  String.mk ((base.data.reverse.dropWhile (fun c => ¬ c = '/')).reverse) ++ ref

/-- Go `URL.ResolveReference` (string-to-string form): standard RFC 3986
reference resolution over the modelled URL fields. -/
def resolveReference (base ref : String) : String :=
  match urlParse ref, urlParse base with
  | some r, some b =>
    if r.scheme ≠ "" then urlString r
    else if r.host ≠ "" then urlString { r with scheme := b.scheme }
    else if r.path = "" ∧ r.opq = "" then
      urlString { b with rawQuery := (if r.rawQuery ≠ "" then r.rawQuery else b.rawQuery),
                         fragment := r.fragment }
    else if r.path.data.take 1 = ['/'] then
      urlString { b with opq := "", path := r.path, rawQuery := r.rawQuery,
                         fragment := r.fragment }
    else
      urlString { b with opq := "", path := mergePaths b.path r.path,
                         rawQuery := r.rawQuery, fragment := r.fragment }
  | _, _ => ref

/-- Run the modifier pipeline in order, stopping at the first error. -/
def applyModifiers : List Modifier → Request → Except ProxyErr Request
  | [], req => .ok req
  | m :: ms, req =>
    match m req with
    | .error e => .error e
    | .ok req' => applyModifiers ms req'

/-- Go `proxyServer.NewRequest`: resolve the inbound URL against the target,
copy all inbound headers onto the outbound request, then run the
modifiers.  (`http.NewRequestWithContext` itself cannot fail here: the
method and URL are taken from an already-parsed inbound request.) -/
def proxyServer.NewRequest (self : proxyServer) (r : Request) : Except ProxyErr Request :=
  applyModifiers self.Modifiers
    { url := resolveReference self.Target r.url, formParams := [], headers := r.headers }

/-- The events adding every value of one header key. -/
def headerPairEvents (k : String) : List String → List ProxyEvent
  | [] => []
  | v :: vs => ProxyEvent.addHeader k v :: headerPairEvents k vs

/-- The events copying every upstream header name and value. -/
def headerEvents : Header → List ProxyEvent
  | [] => []
  | (k, vs) :: rest => headerPairEvents k vs ++ headerEvents rest

/-- The body-relay step: the streaming relay exactly when the upstream
`Content-Type` is `text/event-stream`, one complete copy otherwise. -/
def relayEvent (resp : Response) : ProxyEvent :=
  if headerGet resp.Header "Content-Type" = "text/event-stream" then .streamBody
  else .copyBody

/-- Go `proxyServer.Serve`: a `NewRequest` failure is answered with
`http.Error(w, _, 500)` unconditionally; a `Client.Do` failure is switched
on its type, a `*statusError` answering with its carried code and anything
else with 500; on success every upstream header is copied, then the status
written, then the body relayed. -/
def proxyServer.Serve (self : proxyServer) (r : Request) : List ProxyEvent :=
  match self.NewRequest r with
  | .error _ => [.writeStatus 500, .logErr]
  | .ok req =>
    match self.clientDo req with
    | .error (.statusError c) => [.writeStatus c, .logErr]
    | .error .generic => [.writeStatus 500, .logErr]
    | .ok resp =>
      headerEvents resp.Header ++ ProxyEvent.writeStatus resp.StatusCode :: [relayEvent resp]

/-! ## The distributed cache layer (from the groupcache-based source file). -/

/-- Go `time.Duration.Round` applied to a time (`time.Now().Round(ttl)`),
over non-negative nanosecond counts: round to the nearest multiple of the
duration, halfway values rounding up, a non-positive duration leaving the
time unchanged. -/
def roundTime (d t : Nat) : Nat :=
  if d = 0 then t
  else if 2 * (t % d) < d then t - t % d
  else t - t % d + d

/-- The cache key of `proxyCache.ServeHTTP`:
`fmt.Sprintf("[%v]%v", time.Now().Round(c.Duration), url)`, the formatted
rounded time modelled by its decimal nanosecond count (injective and
bracket-free, as Go's time formatting is). -/
def cacheKey (d t : Nat) (url : String) : String :=
  "[" ++ natToString (roundTime d t) ++ "]" ++ url

/-- A response-writer action performed by the wrapped handler. -/
inductive WAction where
  | writeHeader (code : Nat)
  | write (bytes : List Nat)
deriving Repr, DecidableEq

/-- The `cacheWriter` response sink: captured headers, body bytes, and
status code. -/
structure cacheWriter where
  header : Header := []
  body : List Nat := []
  statusCode : Nat := 0
deriving Repr, DecidableEq

/-- Go `NewCacheWriter`: empty header map, empty buffer, and — the Go struct
zero value — status code `0`. -/
def NewCacheWriter : cacheWriter :=
  { header := [], body := [], statusCode := 0 }

/-- Replay the handler's writer actions: `WriteHeader` stores the status
code, `Write` appends to the buffer. -/
def runWriter (cw : cacheWriter) : List WAction → cacheWriter
  | [] => cw
  | .writeHeader n :: rest => runWriter { cw with statusCode := n } rest
  | .write bs :: rest => runWriter { cw with body := cw.body ++ bs } rest

/-- Go `cacheWriter.WriteCache`: a captured status of 400 or more fails with
an `HttpError` carrying that exact status (modelled by the `Except.error`
code) and writes nothing to the sink; otherwise the buffered bytes are
set as the sink value. -/
def cacheWriter.WriteCache (cw : cacheWriter) : Except Nat (List Nat) :=
  if cw.statusCode ≥ 400 then .error cw.statusCode else .ok cw.body

/-- Go `cacheGetter.Get`: run the wrapped handler (modelled as a function from
the synthetic request to its writer actions) against a fresh `cacheWriter`
and commit through `WriteCache`. -/
def cacheGetter.Get (handler : Request → List WAction) (req : Request) :
    Except Nat (List Nat) :=
  (runWriter NewCacheWriter (handler req)).WriteCache

/-- Lookup of a stored value in the modelled cluster cache. -/
def cacheLookup : List (String × List Nat) → String → Option (List Nat)
  | [], _ => none
  | (k, v) :: rest, key => if k = key then some v else cacheLookup rest key

/-- Modelled from the spec: the groupcache backend used by `NewGroupCache`
(a third-party dependency, not part of this repository) provides
"get value by key, or compute-once via a supplied loader" semantics: a hit
returns the stored bytes, a miss runs the loader, storing its bytes on
success and storing nothing on error. -/
def groupGet (cache : List (String × List Nat)) (key : String)
    (load : Unit → Except Nat (List Nat)) :
    List (String × List Nat) × Except Nat (List Nat) :=
  match cacheLookup cache key with
  | some v => (cache, .ok v)
  | none =>
    match load () with
    | .ok v => ((key, v) :: cache, .ok v)
    | .error c => (cache, .error c)

/-! ## Concrete fixtures used by witnesses and counterexamples. -/

/-- The value `encode { RedirectUri := "/", Timestamp := 0 }`: a state-cookie value
as `Login` would store it. -/
def stateVal0 : String := "eyJSZWRpcmVjdFVyaSI6Ii8iLCJUaW1lc3RhbXAiOjB9"

/-- A callback request whose `state` parameter matches its state cookie. -/
def rGoodState : Request :=
  { formParams := [("state", stateVal0), ("code", "abc")],
    headers := [("Cookie", ["state=" ++ stateVal0])] }

/-- A callback request whose `state` parameter mismatches its state cookie. -/
def rBadState : Request :=
  { formParams := [("state", "zzz")],
    headers := [("Cookie", ["state=" ++ stateVal0])] }

/-- The value `encode { RedirectUri := "http://evil.example/", Timestamp := 0 }`: a
state-cookie value whose stored redirect target has a host. -/
def stateValEvil : String :=
  "eyJSZWRpcmVjdFVyaSI6Imh0dHA6Ly9ldmlsLmV4YW1wbGUvIiwiVGltZXN0YW1wIjowfQ=="

/-- A callback request with a matching state whose stored redirect target
is an absolute URL on a foreign host. -/
def rEvilState : Request :=
  { formParams := [("state", stateValEvil), ("code", "abc")],
    headers := [("Cookie", ["state=" ++ stateValEvil])] }

/-- A request carrying an absolute `redirect_uri` on a foreign host. -/
def rEvilRedirect : Request := { formParams := [("redirect_uri", "http://evil.example/")] }

/-- The parse of `http://evil.example/`. -/
def evilURL : GoURL := { scheme := "http", host := "evil.example", path := "/" }

/-- A request carrying a `Cookie` header without the auth cookie. -/
def rOtherCookie : Request := { headers := [("Cookie", ["other=1"])] }

/-- A request carrying the auth session cookie. -/
def rAuthCookie : Request := { headers := [("Cookie", ["auth=Bearer tok"])] }

/-- The request `rAuthCookie` after `ModifyHeader` has rewritten its headers. -/
def rAuthModified : Request := { headers := [("Authorization", ["Bearer tok"])] }

/-- An upstream event-stream response. -/
def respStream : Response :=
  { StatusCode := 200,
    Header := [("Content-Type", ["text/event-stream"]), ("X-A", ["1", "2"])] }

/-- A proxy whose only modifier fails with a status-carrying error. -/
def pCex : proxyServer :=
  { Target := "http://api/",
    Modifiers := [fun _ => .error (.statusError 404)],
    clientDo := fun _ => .error .generic }

/-- A proxy whose upstream call succeeds with an event-stream response. -/
def pOkStream : proxyServer :=
  { Target := "http://api/", Modifiers := [], clientDo := fun _ => .ok respStream }

/-- A proxy whose upstream call fails with a status-carrying error. -/
def pDoStatus : proxyServer :=
  { Target := "http://api/", Modifiers := [],
    clientDo := fun _ => .error (.statusError 418) }

/-- A proxy whose upstream call fails with a generic error. -/
def pDoGeneric : proxyServer :=
  { Target := "http://api/", Modifiers := [], clientDo := fun _ => .error .generic }

/-- The outbound request `NewRequest` builds for `{ url := "/x" }` against
the target `http://api/` with no modifiers. -/
def reqBuilt : Request := { url := "http://api/x" }

/-- A handler run whose captured status is an error status. -/
def handler404 : Request → List WAction := fun _ => [.writeHeader 404, .write [1, 2]]

/-- A handler run that writes a body and a success status. -/
def handler200 : Request → List WAction := fun _ => [.writeHeader 200, .write [7]]

/-- A handler run that writes a body without ever calling `WriteHeader`. -/
def handlerNoStatus : Request → List WAction := fun _ => [.write [104], .write [105]]

/-! # Theorems

First general lemmas about the embedded operations, then one theorem per
claim of the specification. -/

/-! ## Header and cookie lemmas. -/

theorem headerValues_add_self (h : Header) (k v : String) :
    headerValues (headerAdd h k v) k = headerValues h k ++ [v] := by
  induction h with
  | nil => simp [headerAdd, headerValues]
  | cons p rest ih =>
    obtain ⟨k', vs⟩ := p
    by_cases hk : k' = k
    · subst hk; simp [headerAdd, headerValues]
    · simp [headerAdd, headerValues, hk, ih]

theorem headerValues_add_ne (h : Header) {k k' : String} (v : String) (hne : k' ≠ k) :
    headerValues (headerAdd h k v) k' = headerValues h k' := by
  have hne' : ¬ k = k' := fun hh => hne hh.symm
  induction h with
  | nil => simp [headerAdd, headerValues, hne']
  | cons p rest ih =>
    obtain ⟨k'', vs⟩ := p
    by_cases hk : k'' = k
    · subst hk
      simp [headerAdd, headerValues, hne']
    · simp [headerAdd, headerValues, hk, ih]

theorem headerValues_del_self (h : Header) (k : String) :
    headerValues (headerDel h k) k = [] := by
  induction h with
  | nil => simp [headerDel, headerValues]
  | cons p rest ih =>
    obtain ⟨k', vs⟩ := p
    by_cases hk : k' = k
    · simp [headerDel, hk, ih]
    · simp [headerDel, headerValues, hk, ih]

theorem headerValues_del_ne (h : Header) {k k' : String} (hne : k' ≠ k) :
    headerValues (headerDel h k) k' = headerValues h k' := by
  have hne' : ¬ k = k' := fun hh => hne hh.symm
  induction h with
  | nil => simp [headerDel, headerValues]
  | cons p rest ih =>
    obtain ⟨k'', vs⟩ := p
    by_cases hk : k'' = k
    · subst hk
      simp [headerDel, headerValues, hne', ih]
    · simp [headerDel, headerValues, hk, ih]

theorem readCookieValue_nil (name : String) : readCookieValue name [] = none := rfl

/-- After `ModifyHeader` deletes the `Cookie` header, no cookie is left. -/
theorem reqCookie_after_del (r : Request) (v name : String) :
    reqCookie { r with headers := headerDel (headerAdd r.headers "Authorization" v) "Cookie" }
      name = none := by
  show readCookieValue name
    (headerValues (headerDel (headerAdd r.headers "Authorization" v) "Cookie") "Cookie") = none
  rw [headerValues_del_self]
  rfl

/-! ## C4: `ModifyHeader` idempotence and cookie stripping. -/

/-- C4 counterexample: the claim "after application the request carries no
`Cookie` header" fails.  On a request whose `Cookie` header does not
contain the auth cookie, `ModifyHeader` leaves the request unchanged, so
the `Cookie` header survives. -/
theorem modifyHeader_keeps_cookie_cex :
    authServer.ModifyHeader {} rOtherCookie = .ok rOtherCookie
    ∧ headerValues rOtherCookie.headers "Cookie" = ["other=1"]
    ∧ headerValues rOtherCookie.headers "Cookie" ≠ [] := by
  refine ⟨rfl, rfl, by decide⟩

/-- C4 (amended): `ModifyHeader` is idempotent — a second application
returns its input unchanged, so in particular the `Authorization` header
after two applications equals the one after one — and it removes the
`Cookie` header exactly when the auth cookie is present; when that cookie
is absent the request (any other cookies included) is left unchanged. -/
theorem modifyHeader_idempotent (self : authServer) (r : Request) :
    (∀ r', self.ModifyHeader r = .ok r' → self.ModifyHeader r' = .ok r')
    ∧ (∀ v, reqCookie r self.authCookieName = some v →
        ∃ r', self.ModifyHeader r = .ok r' ∧ headerValues r'.headers "Cookie" = [])
    ∧ (reqCookie r self.authCookieName = none → self.ModifyHeader r = .ok r) := by
  refine ⟨?_, ?_, ?_⟩
  · intro r' h'
    cases hc : reqCookie r self.authCookieName with
    | none =>
      rw [authServer.ModifyHeader, hc] at h'
      cases h'
      rw [authServer.ModifyHeader, hc]
    | some v =>
      rw [authServer.ModifyHeader, hc] at h'
      cases h'
      rw [authServer.ModifyHeader, reqCookie_after_del]
  · intro v hc
    refine ⟨{ r with headers := headerDel (headerAdd r.headers "Authorization" v) "Cookie" },
      ?_, ?_⟩
    · rw [authServer.ModifyHeader, hc]
    · exact headerValues_del_self _ _
  · intro hc
    rw [authServer.ModifyHeader, hc]

/-- C4 witness: the amended theorem applied to a request carrying the auth
cookie, and idempotence observed on its result. -/
theorem modifyHeader_idempotent_witness :
    (∃ r', authServer.ModifyHeader {} rAuthCookie = .ok r'
      ∧ headerValues r'.headers "Cookie" = [])
    ∧ authServer.ModifyHeader {} rAuthModified = .ok rAuthModified := by
  refine ⟨(modifyHeader_idempotent {} rAuthCookie).2.1 "Bearer tok" (by decide), ?_⟩
  exact (modifyHeader_idempotent {} rAuthCookie).1 rAuthModified (by decide)

/-! ## C1: the open-redirect guard. -/

/-- C1 counterexample: `Login` does **not** reject a `redirect_uri` form
value whose parsed URL has a non-empty host — it responds with the 307
redirect to the provider, not with HTTP 400 (`Login` performs no host
validation at all; the guard runs only in `Callback` and `Logout`). -/
theorem login_no_host_check_cex :
    urlParse "http://evil.example/" = some evilURL
    ∧ evilURL.host ≠ ""
    ∧ (authServer.Login {} (fun s => s) rEvilRedirect 0).status = 307
    ∧ ¬ (authServer.Login {} (fun s => s) rEvilRedirect 0).status = 400 := by
  exact ⟨by decide, by decide, rfl, by decide⟩

/-- C1 (amended): `Callback` (when the decoded state's redirect target
parses with a non-empty host) and `Logout` (when the `redirect_uri` form
value parses with a non-empty host) reject with HTTP 400 and set no
cookies; `Login` performs no such validation on its `redirect_uri` form
value and always responds with a 307 redirect, deferring the open-redirect
check on the stored target to `Callback`. -/
theorem open_redirect_guard :
    (∀ (self : authServer) (exchange : String → Option Token) (r : Request)
        (st : State) (u : GoURL),
      authServer.checkError r = none → self.decodeState r = some st →
      urlParse st.RedirectUri = some u → u.host ≠ "" →
      self.Callback exchange r = { status := 400 })
    ∧ (∀ (self : authServer) (r : Request) (u : GoURL),
      urlParse (if formValue r "redirect_uri" = "" then "/" else formValue r "redirect_uri")
        = some u →
      u.host ≠ "" → self.Logout r = { status := 400 })
    ∧ (∀ (self : authServer) (authCodeURL : String → String) (r : Request) (now : Int),
      (self.Login authCodeURL r now).status = 307) := by
  refine ⟨?_, ?_, ?_⟩
  · intro self exchange r st u hce hds hup hh
    simp [authServer.Callback, hce, hds, hup, hh]
  · intro self r u hup hh
    simp [authServer.Logout, hup, hh]
  · intro self authCodeURL r now
    rfl

/-- C1 witness: the guard firing in `Callback` and `Logout` at concrete
requests, and `Login` redirecting. -/
theorem open_redirect_guard_witness :
    authServer.Callback {} (fun _ => none) rEvilState = { status := 400 }
    ∧ authServer.Logout {} rEvilRedirect = { status := 400 }
    ∧ (authServer.Login {} (fun s => s) rEvilRedirect 0).status = 307 := by
  refine ⟨?_, ?_, open_redirect_guard.2.2 {} (fun s => s) rEvilRedirect 0⟩
  · exact open_redirect_guard.1 {} (fun _ => none) rEvilState
      { RedirectUri := "http://evil.example/", Timestamp := 0 } evilURL
      (by decide) (by decide) (by decide) (by decide)
  · exact open_redirect_guard.2.1 {} rEvilRedirect evilURL (by decide) (by decide)

/-! ## C2: the callback state gate. -/

/-- C2: `Callback` proceeds past state validation (its `decodeState` step
succeeds) iff the request carries the state cookie, the `state` form/query
parameter is byte-equal to the cookie value, and the cookie value decodes
as base64 JSON; and whenever state validation fails, `Callback` responds
with HTTP 400 and sets no cookies. -/
theorem callback_state_gate (self : authServer) (exchange : String → Option Token)
    (r : Request) :
    ((self.decodeState r).isSome ↔
      ∃ v, reqCookie r self.stateCookieName = some v ∧ formValue r "state" = v
        ∧ (decode v).isSome)
    ∧ (authServer.checkError r = none → self.decodeState r = none →
        self.Callback exchange r = { status := 400 }) := by
  constructor
  · unfold authServer.decodeState
    cases hc : reqCookie r self.stateCookieName with
    | none => simp
    | some v =>
      by_cases hv : v = formValue r "state"
      · rw [show (match some v with
            | none => none
            | some v => if v ≠ formValue r "state" then none else decode v)
            = if v ≠ formValue r "state" then none else decode v from rfl]
        rw [if_neg (by simp [hv])]
        constructor
        · intro hd
          exact ⟨v, rfl, hv.symm, hd⟩
        · rintro ⟨v', hv', _, hd⟩
          cases hv'
          exact hd
      · rw [show (match some v with
            | none => none
            | some v => if v ≠ formValue r "state" then none else decode v)
            = if v ≠ formValue r "state" then none else decode v from rfl]
        rw [if_pos hv]
        simp only [Option.isSome_none, Bool.false_eq_true, false_iff]
        rintro ⟨v', hv', hf, _⟩
        cases hv'
        exact hv hf.symm
  · intro hce hds
    simp [authServer.Callback, hce, hds]

/-- C2 witness: a matching state passes the gate; a mismatching one is a
bare 400. -/
theorem callback_state_gate_witness :
    (authServer.decodeState {} rGoodState).isSome
    ∧ authServer.Callback {} (fun _ => none) rBadState = { status := 400 } := by
  constructor
  · exact (callback_state_gate {} (fun _ => none) rGoodState).1.mpr
      ⟨stateVal0, by decide, by decide, by decide⟩
  · exact (callback_state_gate {} (fun _ => none) rBadState).2 (by decide) (by decide)

/-! ## C3: `Callback` is atomic on failure. -/

/-- C3: either every step of `Callback` succeeded — no provider error
parameter, state validated, redirect target parsed with an empty host, and
the code-for-token exchange succeeded — and the response is the 307
redirect setting the auth cookie and clearing the state cookie, or the
response is exactly `{ status := 400 }` with no cookies set and no
redirect: cookies are mutated only after every step has succeeded. -/
theorem callback_atomic_on_failure (self : authServer) (exchange : String → Option Token)
    (r : Request) :
    self.Callback exchange r = { status := 400 }
    ∨ ∃ st u token,
        authServer.checkError r = none
        ∧ self.decodeState r = some st
        ∧ urlParse st.RedirectUri = some u
        ∧ u.host = ""
        ∧ exchange (formValue r "code") = some token
        ∧ self.Callback exchange r =
            { status := 307
              cookies := [authCookie self token, clearStateCookie self]
              redirect := some (urlString u) } := by
  cases hce : authServer.checkError r with
  | some e => exact Or.inl (by simp [authServer.Callback, hce])
  | none =>
    cases hds : self.decodeState r with
    | none => exact Or.inl (by simp [authServer.Callback, hce, hds])
    | some st =>
      cases hup : urlParse st.RedirectUri with
      | none => exact Or.inl (by simp [authServer.Callback, hce, hds, hup])
      | some u =>
        by_cases hh : u.host = ""
        · cases hex : exchange (formValue r "code") with
          | none => exact Or.inl (by simp [authServer.Callback, hce, hds, hup, hh, hex])
          | some token =>
            exact Or.inr ⟨st, u, token, rfl, rfl, hup, hh,
              rfl, by simp [authServer.Callback, hce, hds, hup, hh, hex]⟩
        · exact Or.inl (by simp [authServer.Callback, hce, hds, hup, hh])

/-! ## C9: `ModifyHeader` never errors. -/

/-- C9: `ModifyHeader` always returns a `nil` error, so it can never
short-circuit the modifier pipeline; with the auth cookie present it adds
the cookie value as an `Authorization` header and deletes the `Cookie`
header, leaving everything else intact, and with the cookie absent it
leaves the request entirely unchanged. -/
theorem modifyHeader_never_errors (self : authServer) (r : Request) :
    (∃ r', self.ModifyHeader r = .ok r')
    ∧ (reqCookie r self.authCookieName = none → self.ModifyHeader r = .ok r)
    ∧ (∀ v, reqCookie r self.authCookieName = some v →
        ∃ r', self.ModifyHeader r = .ok r'
          ∧ headerValues r'.headers "Authorization"
              = headerValues r.headers "Authorization" ++ [v]
          ∧ headerValues r'.headers "Cookie" = []
          ∧ r'.url = r.url ∧ r'.formParams = r.formParams) := by
  refine ⟨?_, ?_, ?_⟩
  · cases hc : reqCookie r self.authCookieName with
    | none => exact ⟨r, by rw [authServer.ModifyHeader, hc]⟩
    | some v =>
      exact ⟨{ r with headers := headerDel (headerAdd r.headers "Authorization" v) "Cookie" },
        by rw [authServer.ModifyHeader, hc]⟩
  · intro hc
    rw [authServer.ModifyHeader, hc]
  · intro v hc
    refine ⟨{ r with headers := headerDel (headerAdd r.headers "Authorization" v) "Cookie" },
      by rw [authServer.ModifyHeader, hc], ?_, ?_, rfl, rfl⟩
    · show headerValues (headerDel (headerAdd r.headers "Authorization" v) "Cookie")
        "Authorization" = headerValues r.headers "Authorization" ++ [v]
      rw [headerValues_del_ne _ (by decide), headerValues_add_self]
    · exact headerValues_del_self _ _

/-- C9 witness: both branches at concrete requests. -/
theorem modifyHeader_never_errors_witness :
    authServer.ModifyHeader {} rOtherCookie = .ok rOtherCookie
    ∧ ∃ r', authServer.ModifyHeader {} rAuthCookie = .ok r'
        ∧ headerValues r'.headers "Authorization"
            = headerValues rAuthCookie.headers "Authorization" ++ ["Bearer tok"]
        ∧ headerValues r'.headers "Cookie" = []
        ∧ r'.url = rAuthCookie.url ∧ r'.formParams = rAuthCookie.formParams := by
  refine ⟨(modifyHeader_never_errors {} rOtherCookie).2.1 (by decide), ?_⟩
  exact (modifyHeader_never_errors {} rAuthCookie).2.2 "Bearer tok" (by decide)

/-! ## C5: proxy error handling. -/

/-- C5 counterexample: a status-carrying failure while building the
outbound request (here a modifier failing with a `statusError` carrying
404) is answered with HTTP 500, not with the carried 404 — `Serve` type-
switches on the error only for `Client.Do` failures, never for
`NewRequest` failures. -/
theorem serve_modifier_status_cex :
    pCex.NewRequest { url := "/x" } = .error (.statusError 404)
    ∧ pCex.Serve { url := "/x" } = [.writeStatus 500, .logErr]
    ∧ pCex.Serve { url := "/x" } ≠ [.writeStatus 404, .logErr] := by
  exact ⟨by decide, by decide, by decide⟩

/-- C5 (amended): a failure building the outbound request (including any
modifier error, status-carrying or not) is answered with HTTP 500; a
failure executing the request against the upstream is answered with the
carried status when it is a `statusError` and with HTTP 500 otherwise; in
every case the error is logged and no upstream response is relayed (the
trace is exactly the status write and the log). -/
theorem serve_error_paths (self : proxyServer) (r : Request) :
    (∀ e, self.NewRequest r = .error e →
      self.Serve r = [.writeStatus 500, .logErr])
    ∧ (∀ req c, self.NewRequest r = .ok req →
        self.clientDo req = .error (.statusError c) →
        self.Serve r = [.writeStatus c, .logErr])
    ∧ (∀ req, self.NewRequest r = .ok req → self.clientDo req = .error .generic →
        self.Serve r = [.writeStatus 500, .logErr]) := by
  refine ⟨?_, ?_, ?_⟩
  · intro e he
    simp [proxyServer.Serve, he]
  · intro req c h1 h2
    simp [proxyServer.Serve, h1, h2]
  · intro req h1 h2
    simp [proxyServer.Serve, h1, h2]

/-- C5 witness: all three error paths at concrete proxies. -/
theorem serve_error_paths_witness :
    pCex.Serve { url := "/x" } = [.writeStatus 500, .logErr]
    ∧ pDoStatus.Serve { url := "/x" } = [.writeStatus 418, .logErr]
    ∧ pDoGeneric.Serve { url := "/x" } = [.writeStatus 500, .logErr] := by
  refine ⟨?_, ?_, ?_⟩
  · exact (serve_error_paths pCex { url := "/x" }).1 (.statusError 404) (by decide)
  · exact (serve_error_paths pDoStatus { url := "/x" }).2.1 reqBuilt 418 (by decide) rfl
  · exact (serve_error_paths pDoGeneric { url := "/x" }).2.2 reqBuilt (by decide) rfl

/-! ## C6: proxy success relay. -/

theorem mem_headerPairEvents {k v : String} {vs : List String} (hv : v ∈ vs) :
    ProxyEvent.addHeader k v ∈ headerPairEvents k vs := by
  induction vs with
  | nil => cases hv
  | cons w ws ih =>
    cases hv with
    | head => exact List.mem_cons_self _ _
    | tail _ h => exact List.mem_cons_of_mem _ (ih h)

theorem mem_headerEvents {hd : Header} {k v : String} {vs : List String}
    (hm : (k, vs) ∈ hd) (hv : v ∈ vs) :
    ProxyEvent.addHeader k v ∈ headerEvents hd := by
  induction hd with
  | nil => cases hm
  | cons p rest ih =>
    obtain ⟨k', vs'⟩ := p
    cases hm with
    | head => exact List.mem_append_left _ (mem_headerPairEvents hv)
    | tail _ h => exact List.mem_append_right _ (ih h)

/-- C6: on upstream success the trace of `Serve` is exactly the copy of
every upstream header name and value, then the upstream status write, then
one body-relay step; the relay is the streaming one iff the upstream
`Content-Type` equals `text/event-stream`, a single complete copy
otherwise; and every header pair of the upstream response occurs among the
copied-header events. -/
theorem serve_success_relay (self : proxyServer) (r req : Request) (resp : Response)
    (h1 : self.NewRequest r = .ok req) (h2 : self.clientDo req = .ok resp) :
    self.Serve r = headerEvents resp.Header
        ++ ProxyEvent.writeStatus resp.StatusCode :: [relayEvent resp]
    ∧ (relayEvent resp = .streamBody ↔
        headerGet resp.Header "Content-Type" = "text/event-stream")
    ∧ (relayEvent resp = .copyBody ↔
        ¬ headerGet resp.Header "Content-Type" = "text/event-stream")
    ∧ (∀ k vs v, (k, vs) ∈ resp.Header → v ∈ vs →
        ProxyEvent.addHeader k v ∈ headerEvents resp.Header) := by
  refine ⟨by simp [proxyServer.Serve, h1, h2], ?_, ?_,
    fun k vs v hm hv => mem_headerEvents hm hv⟩
  · unfold relayEvent
    by_cases hct : headerGet resp.Header "Content-Type" = "text/event-stream"
    · simp [hct]
    · simp [hct]
  · unfold relayEvent
    by_cases hct : headerGet resp.Header "Content-Type" = "text/event-stream"
    · simp [hct]
    · simp [hct]

/-- C6 witness: a concrete event-stream response relayed by `Serve`. -/
theorem serve_success_relay_witness :
    pOkStream.Serve { url := "/x" } = headerEvents respStream.Header
        ++ ProxyEvent.writeStatus respStream.StatusCode :: [relayEvent respStream]
    ∧ (relayEvent respStream = .streamBody ↔
        headerGet respStream.Header "Content-Type" = "text/event-stream")
    ∧ (relayEvent respStream = .copyBody ↔
        ¬ headerGet respStream.Header "Content-Type" = "text/event-stream")
    ∧ (∀ k vs v, (k, vs) ∈ respStream.Header → v ∈ vs →
        ProxyEvent.addHeader k v ∈ headerEvents respStream.Header) := by
  exact serve_success_relay pOkStream { url := "/x" } reqBuilt respStream (by decide) rfl

/-! ## C7: the cache key. -/

theorem digitChar_ne_bracket (n : Nat) : digitChar n ≠ ']' := by
  unfold digitChar
  split <;> decide

theorem natCharsAux_ne_bracket (fuel : Nat) :
    ∀ n c, c ∈ natCharsAux fuel n → c ≠ ']' := by
  induction fuel with
  | zero =>
    intro n c hc
    cases hc
  | succ fuel ih =>
    intro n c hc
    simp only [natCharsAux] at hc
    by_cases h : n < 10
    · rw [if_pos h] at hc
      simp at hc
      subst hc
      exact digitChar_ne_bracket n
    · rw [if_neg h] at hc
      rcases List.mem_append.mp hc with h' | h'
      · exact ih _ _ h'
      · simp at h'
        subst h'
        exact digitChar_ne_bracket _

theorem natChars_ne_bracket (n : Nat) : ∀ c ∈ natChars n, c ≠ ']' :=
  fun c hc => natCharsAux_ne_bracket (n + 1) n c hc

/-- A bracket-free segment before a `]` marker determines the split. -/
theorem bracket_split (a1 : List Char) : ∀ (a2 u1 u2 : List Char),
    (∀ c ∈ a1, c ≠ ']') → (∀ c ∈ a2, c ≠ ']') →
    a1 ++ ']' :: u1 = a2 ++ ']' :: u2 → a1 = a2 ∧ u1 = u2 := by
  induction a1 with
  | nil =>
    intro a2 u1 u2 _ h2 heq
    cases a2 with
    | nil => simpa using heq
    | cons b bs =>
      simp at heq
      exact absurd heq.1.symm (h2 b (List.mem_cons_self b bs))
  | cons a as ih =>
    intro a2 u1 u2 h1 h2 heq
    cases a2 with
    | nil =>
      simp at heq
      exact absurd heq.1 (h1 a (List.mem_cons_self a as))
    | cons b bs =>
      simp at heq
      obtain ⟨hab, heq'⟩ := heq
      obtain ⟨h1', h2'⟩ := ih bs u1 u2 (fun c hc => h1 c (List.mem_cons_of_mem _ hc))
        (fun c hc => h2 c (List.mem_cons_of_mem _ hc)) heq'
      exact ⟨by rw [hab, h1'], h2'⟩

theorem string_ext {s t : String} (h : s.data = t.data) : s = t := by
  cases s
  cases t
  exact congrArg String.mk h

theorem cacheKey_data (d t : Nat) (url : String) :
    (cacheKey d t url).data = '[' :: (natChars (roundTime d t) ++ ']' :: url.data) := by
  simp [cacheKey, natToString, String.data_append]

/-- The URL part of a cache key is recoverable: keys agree only on equal
URLs, whatever the two times were. -/
theorem cacheKey_url_inj {d t1 t2 : Nat} {u1 u2 : String}
    (h : cacheKey d t1 u1 = cacheKey d t2 u2) : u1 = u2 := by
  have hd := congrArg String.data h
  rw [cacheKey_data, cacheKey_data] at hd
  simp only [List.cons.injEq, true_and] at hd
  exact string_ext (bracket_split _ _ _ _ (natChars_ne_bracket _) (natChars_ne_bracket _) hd).2

theorem urlString_pq_data (p q : String) :
    (urlString { path := p, rawQuery := q }).data
      = p.data ++ (if q = "" then [] else '?' :: q.data) := by
  by_cases hq : q = ""
  · subst hq
    simp [urlString, String.data_append]
  · simp [urlString, hq, String.data_append]

/-- C7 (amended): the cache key is the current time rounded to the
**nearest** multiple of the TTL (halfway rounding up — Go `time.Round`,
not truncation) concatenated with the full request URL; two requests for
the same URL whose times round to the same multiple share a key; two
different URLs — in particular the same path with different query strings
— never share a key; and for a positive TTL `d` the rounded time is
`d * ((2t + d) / (2d))`, so the key space partitions time into
non-overlapping windows of width `d` centred on the multiples of `d`. -/
theorem cacheKey_spec :
    (∀ d t1 t2 url, roundTime d t1 = roundTime d t2 →
      cacheKey d t1 url = cacheKey d t2 url)
    ∧ (∀ (d t1 t2 : Nat) (u1 u2 : String), cacheKey d t1 u1 = cacheKey d t2 u2 → u1 = u2)
    ∧ (∀ (d t1 t2 : Nat) (p q1 q2 : String), q1 ≠ q2 →
      cacheKey d t1 (urlString { path := p, rawQuery := q1 })
        ≠ cacheKey d t2 (urlString { path := p, rawQuery := q2 }))
    ∧ (∀ d t, 0 < d → roundTime d t = d * ((2 * t + d) / (2 * d))) := by
  refine ⟨?_, ?_, ?_, ?_⟩
  · intro d t1 t2 url hr
    unfold cacheKey
    rw [hr]
  · intro d t1 t2 u1 u2 h
    exact cacheKey_url_inj h
  · intro d t1 t2 p q1 q2 hq hkey
    have hu := cacheKey_url_inj hkey
    have hd := congrArg String.data hu
    rw [urlString_pq_data, urlString_pq_data] at hd
    have hd' := List.append_cancel_left hd
    by_cases hq1 : q1 = "" <;> by_cases hq2 : q2 = ""
    · exact hq (by rw [hq1, hq2])
    · rw [if_pos hq1, if_neg hq2] at hd'
      cases hd'
    · rw [if_neg hq1, if_pos hq2] at hd'
      cases hd'
    · rw [if_neg hq1, if_neg hq2] at hd'
      simp only [List.cons.injEq, true_and] at hd'
      exact hq (string_ext hd')
  · intro d t hd
    have hdm : d * (t / d) + t % d = t := Nat.div_add_mod t d
    have hr : t % d < d := Nat.mod_lt t hd
    rw [roundTime.eq_def]
    rw [if_neg (Nat.pos_iff_ne_zero.mp hd)]
    have h2t : 2 * t + d = 2 * d * (t / d) + (2 * (t % d) + d) := by
      conv_lhs => rw [← hdm]
      ring
    by_cases hcase : 2 * (t % d) < d
    · rw [if_pos hcase, h2t, Nat.mul_add_div (by omega : 0 < 2 * d),
        Nat.div_eq_of_lt (by omega : 2 * (t % d) + d < 2 * d)]
      have hmul : d * (t / d + 0) = d * (t / d) := by ring
      omega
    · rw [if_neg hcase, h2t, Nat.mul_add_div (by omega : 0 < 2 * d)]
      rw [show (2 * (t % d) + d) / (2 * d) = 1 from
        Nat.div_eq_of_lt_le (by omega) (by omega)]
      have hmul : d * (t / d + 1) = d * (t / d) + d := by ring
      omega

/-- C7 witness: same rounding window and equal keys, URL recovery, distinct
query strings, and the nearest-multiple characterisation, at concrete
values. -/
theorem cacheKey_spec_witness :
    cacheKey 60 61 "/a" = cacheKey 60 59 "/a"
    ∧ ("/a" : String) = "/a"
    ∧ cacheKey 60 59 (urlString { path := "/a", rawQuery := "x=1" })
        ≠ cacheKey 60 59 (urlString { path := "/a", rawQuery := "x=2" })
    ∧ roundTime 2 3 = 2 * ((2 * 3 + 2) / (2 * 2)) := by
  refine ⟨?_, ?_, ?_, ?_⟩
  · exact cacheKey_spec.1 60 61 59 "/a" (by decide)
  · exact cacheKey_spec.2.1 60 61 59 "/a" "/a" (cacheKey_spec.1 60 61 59 "/a" (by decide))
  · exact cacheKey_spec.2.2.1 60 59 59 "/a" "x=1" "x=2" (by decide)
  · exact cacheKey_spec.2.2.2 2 3 (by decide)

/-- C7 counterexample: the key is **not** the time rounded down — with a
TTL of 60 units, the times 59 and 0 lie in the same rounding-down window
(`59 / 60 = 0 / 60`) yet produce different keys, because Go's
`time.Round` rounds 59 up to 60. -/
theorem cacheKey_round_nearest_cex :
    59 / 60 = 0 / 60
    ∧ cacheKey 60 59 "/a" ≠ cacheKey 60 0 "/a"
    ∧ roundTime 60 59 ≠ 59 - 59 % 60 := by
  exact ⟨by decide, by decide, by decide⟩

/-! ## C8: error statuses are never cached. -/

/-- C8: a load whose captured status is ≥ 400 fails with an error carrying
that exact status and stores nothing in the cache, so a later request for
the same key behaves exactly as if the failed load had never happened
(re-invoking the handler); a load whose captured status is < 400 returns
and stores the captured body bytes. -/
theorem cache_no_error_persist (cache : List (String × List Nat)) (key : String)
    (handler : Request → List WAction) (req : Request)
    (hmiss : cacheLookup cache key = none) :
    ((runWriter NewCacheWriter (handler req)).statusCode ≥ 400 →
      cacheGetter.Get handler req
          = .error (runWriter NewCacheWriter (handler req)).statusCode
      ∧ groupGet cache key (fun _ => cacheGetter.Get handler req)
          = (cache, .error (runWriter NewCacheWriter (handler req)).statusCode)
      ∧ ∀ load2, groupGet (groupGet cache key (fun _ => cacheGetter.Get handler req)).1
          key load2 = groupGet cache key load2)
    ∧ ((runWriter NewCacheWriter (handler req)).statusCode < 400 →
      cacheGetter.Get handler req = .ok (runWriter NewCacheWriter (handler req)).body
      ∧ groupGet cache key (fun _ => cacheGetter.Get handler req)
          = ((key, (runWriter NewCacheWriter (handler req)).body) :: cache,
             .ok (runWriter NewCacheWriter (handler req)).body)) := by
  constructor
  · intro hge
    have hget : cacheGetter.Get handler req
        = .error (runWriter NewCacheWriter (handler req)).statusCode := by
      unfold cacheGetter.Get cacheWriter.WriteCache
      rw [if_pos hge]
    refine ⟨hget, by simp [groupGet, hmiss, hget], ?_⟩
    intro load2
    simp [groupGet, hmiss, hget]
  · intro hlt
    have hget : cacheGetter.Get handler req
        = .ok (runWriter NewCacheWriter (handler req)).body := by
      unfold cacheGetter.Get cacheWriter.WriteCache
      rw [if_neg (by omega)]
    exact ⟨hget, by simp [groupGet, hmiss, hget]⟩

/-- C8 witness: a 404-status load errors with 404 and leaves the cache so
untouched that a follow-up load for the same key runs afresh; a
success-status load stores its body. -/
theorem cache_no_error_persist_witness :
    cacheGetter.Get handler404 {}
        = .error (runWriter NewCacheWriter (handler404 ({} : Request))).statusCode
    ∧ groupGet (groupGet [] "k" (fun _ => cacheGetter.Get handler404 {})).1 "k"
        (fun _ => cacheGetter.Get handler200 {})
      = groupGet [] "k" (fun _ => cacheGetter.Get handler200 {})
    ∧ groupGet [] "k" (fun _ => cacheGetter.Get handler200 {})
      = (("k", (runWriter NewCacheWriter (handler200 ({} : Request))).body) :: [],
         .ok (runWriter NewCacheWriter (handler200 ({} : Request))).body) := by
  refine ⟨?_, ?_, ?_⟩
  · exact ((cache_no_error_persist [] "k" handler404 {} rfl).1 (by decide)).1
  · exact ((cache_no_error_persist [] "k" handler404 {} rfl).1 (by decide)).2.2 _
  · exact ((cache_no_error_persist [] "k" handler200 {} rfl).2 (by decide)).2

/-! ## C10: the `cacheWriter` zero status is a success. -/

/-- If the handler never calls `WriteHeader`, the captured status stays at
the writer's initial value. -/
theorem runWriter_status_of_no_writeHeader (cw : cacheWriter) (acts : List WAction)
    (h : ∀ n, WAction.writeHeader n ∉ acts) :
    (runWriter cw acts).statusCode = cw.statusCode := by
  induction acts generalizing cw with
  | nil => rfl
  | cons a rest ih =>
    cases a with
    | writeHeader n => exact absurd (List.mem_cons_self _ _) (h n)
    | write bs =>
      rw [runWriter]
      exact ih _ (fun n hn => h n (List.mem_cons_of_mem _ hn))

/-- The body buffer after a run is whatever the `Write` calls appended. -/
theorem cacheWriter_default_status_body (cw : cacheWriter) :
    cw.statusCode = 0 → cw.WriteCache = .ok cw.body := by
  intro h
  rw [cacheWriter.WriteCache, if_neg (by omega)]

/-- C10: a wrapped handler that writes a body without ever calling
`WriteHeader` leaves the `cacheWriter` status at the Go zero value `0`,
which is below 400, so `WriteCache` persists the captured body as a
success. -/
theorem cacheWriter_default_status (acts : List WAction)
    (h : ∀ n, WAction.writeHeader n ∉ acts) :
    (runWriter NewCacheWriter acts).statusCode = 0
    ∧ (runWriter NewCacheWriter acts).WriteCache = .ok (runWriter NewCacheWriter acts).body := by
  have h0 : (runWriter NewCacheWriter acts).statusCode = 0 :=
    runWriter_status_of_no_writeHeader NewCacheWriter acts h
  exact ⟨h0, cacheWriter_default_status_body _ h0⟩

/-- C10 witness: a body-only handler run is cached as a success. -/
theorem cacheWriter_default_status_witness :
    (runWriter NewCacheWriter (handlerNoStatus {})).statusCode = 0
    ∧ (runWriter NewCacheWriter (handlerNoStatus {})).WriteCache
        = .ok (runWriter NewCacheWriter (handlerNoStatus {})).body := by
  refine cacheWriter_default_status (handlerNoStatus {}) ?_
  intro n hn
  simp [handlerNoStatus] at hn

end Wx
